import Mathlib

/-!
A verification development for a guild-inventory chat bot.  The bot keeps
three SQLite tables (guild configs, inventory items, item requests), parses
free-form item requests, and runs a pending → approved / denied lifecycle
driven by admin button interactions.  The embedding below translates the
store layer (`src/database.py`) and the manager layer
(`src/inventory_manager.py`, `src/commands.py`) into pure Lean functions:
the SQLite tables become lists of rows inside a `Database` record, the
process clock becomes an explicit `now : String` argument, and the chat
platform becomes an explicit environment of booleans plus an emitted action
trace.
-/

/-- One row of the `items` table (dataclass `Item` in `src/database.py`). -/
structure Item where
  id : Option Nat
  guild_id : Nat
  name : String
  quantity : Int
  description : Option String
 deriving Repr, DecidableEq

/-- One row of the `item_requests` table (dataclass `ItemRequest`).
The `items` column holds a JSON object mapping item names to quantities;
we embed it as an association list in insertion order, which is exactly the
information a Python `dict` round-tripped through JSON carries. -/
structure ItemRequest where
  id : Option Nat
  guild_id : Nat
  user_id : Nat
  user_name : String
  items : List (String × Int)
  status : String
  created_at : String
  updated_at : Option String
 deriving Repr, DecidableEq

/-- One row of the `guild_configs` table (dataclass `GuildConfig`). -/
structure GuildConfig where
  guild_id : Nat
  inventory_channel_id : Option Nat
  inventory_message_id : Option Nat
  admin_role_ids : String
 deriving Repr, DecidableEq

/-- The whole SQLite file: the three tables plus the AUTOINCREMENT
counters for `items.id` and `item_requests.id`. -/
structure Database where
  guild_configs : List GuildConfig
  items : List Item
  item_requests : List ItemRequest
  next_item_id : Nat
  next_request_id : Nat
 deriving Repr, DecidableEq

/-- Row filter of `WHERE guild_id = ? AND name = ?` on `items`. -/
def itemMatches (gid : Nat) (name : String) (it : Item) : Bool :=
  it.guild_id == gid && it.name == name

/-- Row filter of `WHERE id = ?` on `item_requests`. -/
def reqMatches (request_id : Nat) (r : ItemRequest) : Bool :=
  r.id == some request_id

/-- Row filter of `WHERE guild_id = ?` on `guild_configs`. -/
def cfgMatches (gid : Nat) (c : GuildConfig) : Bool :=
  c.guild_id == gid

/-- Method `Database.get_guild_config`: `SELECT ... FROM guild_configs WHERE
guild_id = ?` and take the (unique) row, if any. -/
def get_guild_config (db : Database) (gid : Nat) : Option GuildConfig :=
  (db.guild_configs.filter (cfgMatches gid)).head?

/-- The keyword arguments of `Database.set_guild_config`.  Each field is
`none` when the keyword was not supplied at the call site; the inner layer
carries the SQL value itself (which may be NULL). -/
structure ConfigKwargs where
  inventory_channel_id : Option (Option Nat)
  inventory_message_id : Option (Option Nat)
  admin_role_ids : Option String
 deriving Repr, DecidableEq

/-- Method `Database.set_guild_config`: if a row for the guild exists, update only
the supplied columns; otherwise insert a fresh row using the supplied
values (absent keywords become NULL, `admin_role_ids` defaults to "[]"). -/
def set_guild_config (db : Database) (gid : Nat) (kw : ConfigKwargs) : Database :=
  if db.guild_configs.any (cfgMatches gid) then
    { db with guild_configs := db.guild_configs.map (fun c =>
        if cfgMatches gid c then
          { c with
            inventory_channel_id :=
              match kw.inventory_channel_id with
              | some v => v
              | none => c.inventory_channel_id
            inventory_message_id :=
              match kw.inventory_message_id with
              | some v => v
              | none => c.inventory_message_id
            admin_role_ids :=
              match kw.admin_role_ids with
              | some v => v
              | none => c.admin_role_ids }
        else c) }
  else
    { db with guild_configs := db.guild_configs ++
        [{ guild_id := gid
           inventory_channel_id := match kw.inventory_channel_id with
             | some v => v
             | none => none
           inventory_message_id := match kw.inventory_message_id with
             | some v => v
             | none => none
           admin_role_ids := match kw.admin_role_ids with
             | some v => v
             | none => "[]" }] }

/-- Method `Database.get_items`: `SELECT ... FROM items WHERE guild_id = ?
ORDER BY name`. -/
def get_items (db : Database) (gid : Nat) : List Item :=
  List.insertionSort (fun a b : Item => a.name ≤ b.name)
    (db.items.filter (fun it => it.guild_id == gid))

/-- Method `Database.get_item`: the row with the given guild and name, if any. -/
def get_item (db : Database) (gid : Nat) (name : String) : Option Item :=
  (db.items.filter (itemMatches gid name)).head?

/-- Method `Database.add_item`: INSERT a new row; the UNIQUE(guild_id, name)
constraint turns a duplicate into an `sqlite3.IntegrityError`, which the
method catches and reports as `False` with no change. -/
def add_item (db : Database) (gid : Nat) (name : String) (quantity : Int)
    (description : Option String) : Bool × Database :=
  if db.items.any (itemMatches gid name) then
    (false, db)
  else
    (true, { db with
      items := db.items ++
        [{ id := some db.next_item_id, guild_id := gid, name := name,
           quantity := quantity, description := description }]
      next_item_id := db.next_item_id + 1 })

/-- Method `Database.update_item_quantity`: `UPDATE items SET quantity = ? WHERE
guild_id = ? AND name = ?`; returns `rowcount > 0`. -/
def update_item_quantity (db : Database) (gid : Nat) (name : String)
    (quantity : Int) : Bool × Database :=
  (db.items.any (itemMatches gid name),
   { db with items := db.items.map (fun it =>
       if itemMatches gid name it then { it with quantity := quantity } else it) })

/-- Method `Database.add_item_quantity`: `UPDATE items SET quantity = quantity + ?
WHERE guild_id = ? AND name = ?`; returns `rowcount > 0`. -/
def add_item_quantity (db : Database) (gid : Nat) (name : String)
    (quantity : Int) : Bool × Database :=
  (db.items.any (itemMatches gid name),
   { db with items := db.items.map (fun it =>
       if itemMatches gid name it then
         { it with quantity := it.quantity + quantity } else it) })

/-- Method `Database.remove_item_quantity`: `UPDATE items SET quantity =
MAX(0, quantity - ?) WHERE guild_id = ? AND name = ?`; returns
`rowcount > 0`. -/
def remove_item_quantity (db : Database) (gid : Nat) (name : String)
    (quantity : Int) : Bool × Database :=
  (db.items.any (itemMatches gid name),
   { db with items := db.items.map (fun it =>
       if itemMatches gid name it then
         { it with quantity := max 0 (it.quantity - quantity) } else it) })

/-- Method `Database.delete_item`: `DELETE FROM items WHERE guild_id = ? AND
name = ?`; returns `rowcount > 0`. -/
def delete_item (db : Database) (gid : Nat) (name : String) : Bool × Database :=
  (db.items.any (itemMatches gid name),
   { db with items := db.items.filter (fun it => !(itemMatches gid name it)) })

/-- Method `Database.create_request`: INSERT a row with status DEFAULT 'pending',
`created_at` DEFAULT CURRENT_TIMESTAMP (passed in as `now`), NULL
`updated_at`; returns the new AUTOINCREMENT id. -/
def create_request (db : Database) (gid uid : Nat) (uname : String)
    (items : List (String × Int)) (now : String) : Nat × Database :=
  (db.next_request_id,
   { db with
     item_requests := db.item_requests ++
       [{ id := some db.next_request_id, guild_id := gid, user_id := uid,
          user_name := uname, items := items, status := "pending",
          created_at := now, updated_at := none }]
     next_request_id := db.next_request_id + 1 })

/-- Method `Database.update_request_status`: `UPDATE item_requests SET status = ?,
updated_at = CURRENT_TIMESTAMP WHERE id = ?`; returns `rowcount > 0`. -/
def update_request_status (db : Database) (request_id : Nat)
    (status now : String) : Bool × Database :=
  (db.item_requests.any (reqMatches request_id),
   { db with item_requests := db.item_requests.map (fun r =>
       if reqMatches request_id r then
         { r with status := status, updated_at := some now } else r) })

/-- Method `Database.get_request`: the row with the given id, if any. -/
def get_request (db : Database) (request_id : Nat) : Option ItemRequest :=
  (db.item_requests.filter (reqMatches request_id)).head?

/-- Python `dict` insertion: `d[k] = v` overwrites the value in place when
the key exists (keeping its position), otherwise appends at the end. -/
def dictInsert {α : Type} (d : List (String × α)) (k : String) (v : α) :
    List (String × α) :=
  if d.any (fun p => p.1 == k) then
    d.map (fun p => if p.1 == k then (k, v) else p)
  else d ++ [(k, v)]

/-- Python `dict` lookup `d[k]` / membership `k in d`. -/
def dictLookup {α : Type} (d : List (String × α)) (k : String) : Option α :=
  (d.find? (fun p => p.1 == k)).map (fun p => p.2)

/-- Build a Python `dict` from a sequence of key-value pairs (dict
comprehension semantics: later pairs overwrite earlier ones). -/
def dictOf {α : Type} (l : List (String × α)) : List (String × α) :=
  l.foldl (fun d p => dictInsert d p.1 p.2) []

/-- Python `str.strip()` at the character level. -/
def chTrim (l : List Char) : List Char :=
  ((l.dropWhile Char.isWhitespace).reverse.dropWhile Char.isWhitespace).reverse

/-- Python `str.lower()` at the character level. -/
def chLower (l : List Char) : List Char :=
  l.map Char.toLower

/-- Scanner for the digit part of Python `int(...)`: a nonempty digit
string where single underscores may separate digits.  `acc` is the value
read so far; `prev` records whether the previous character was a digit
(an underscore is legal only between two digits). -/
def pyDigitsAux : List Char → Nat → Bool → Option Nat
  | [], _, false => none
  | [], acc, true => some acc
  | c :: cs, acc, prev =>
    if c.isDigit then pyDigitsAux cs (acc * 10 + (c.toNat - 48)) true
    else if c == '_' then
      match prev, cs with
      | true, d :: _ => if d.isDigit then pyDigitsAux cs acc false else none
      | _, _ => none
    else none

/-- Python `int(s)` on a decimal string: strip whitespace, then an optional
sign followed by digits (with underscores allowed between digits); any
other shape raises `ValueError`, embedded as `none`. -/
def pyInt (s : List Char) : Option Int :=
  match chTrim s with
  | '+' :: rest => (pyDigitsAux rest 0 false).map (fun n => (n : Int))
  | '-' :: rest => (pyDigitsAux rest 0 false).map (fun n => -(n : Int))
  | chars => (pyDigitsAux chars 0 false).map (fun n => (n : Int))

/-- Splitting on the two-character separator `" x"`, left to right and
non-overlapping, exactly as Python `str.split(" x")` does. -/
def splitOnSpaceX : List Char → List (List Char)
  | [] => [[]]
  | [c] => [[c]]
  | a :: b :: rest =>
    if a == ' ' && b == 'x' then [] :: splitOnSpaceX rest
    else
      match splitOnSpaceX (b :: rest) with
      | [] => [[a]]
      | h :: t => (a :: h) :: t

/-- Python `part.split(":", 1)`: the text before the first colon and
everything after it; `none` when there is no colon (so `":" in part` is
exactly the `some` case). -/
def splitFirstColon (part : List Char) : Option (List Char × List Char) :=
  match part.splitOnP (fun c => c == ':') with
  | [] => none
  | [_] => none
  | a :: rest => some (a, List.intercalate [':'] rest)

/-- Python `part.split(" x", 1)`: the text before the first `" x"` and
everything after it; `none` when `" x"` does not occur. -/
def splitFirstSpaceX (part : List Char) : Option (List Char × List Char) :=
  match splitOnSpaceX part with
  | [] => none
  | [_] => none
  | a :: rest => some (a, List.intercalate [' ', 'x'] rest)

/-- One iteration of the parsing loop in
`InventoryManager.parse_item_input`: extract a (name, quantity-string)
pair from one comma-separated token, trying `"Name: N"`, then
`"Name xN"` (the whole token is lowercased first, because the source
tests `" x" in part.lower()` and then splits `part.lower()`), then the
fallback "last whitespace-delimited word is the quantity". -/
def parseToken (part : List Char) : Option (List Char × List Char) :=
  match splitFirstColon part with
  | some (name, qty) => some (chTrim name, chTrim qty)
  | none =>
    match splitFirstSpaceX (chLower part) with
    | some (name, qty) => some (chTrim name, chTrim qty)
    | none =>
      let words := (part.splitOnP Char.isWhitespace).filter (fun w => !w.isEmpty)
      if words.length < 2 then none
      else some (List.intercalate [' '] words.dropLast, words.getLastD [])

/-- Method `InventoryManager.parse_item_input`: split the input on commas, strip
each part, extract a (name, quantity) candidate from each part, keep it
when its quantity string (commas removed, as in `.replace(",", "")`)
parses as a positive integer, and collect the survivors into a Python
dict. -/
def parse_item_input (input_text : String) : List (String × Int) :=
  ((input_text.data.splitOnP (fun c => c == ',')).map chTrim).foldl
    (fun items part =>
      match parseToken part with
      | none => items
      | some (name, qstr) =>
        match pyInt (qstr.filter (fun c => c != ',')) with
        | some q => if q > 0 then dictInsert items (String.mk name) q else items
        | none => items) []

/-- Python truthiness of an optional integer column (`None` and `0` are
both falsy), used by `update_inventory_display` on the two id columns. -/
def truthy : Option Nat → Bool
  | some n => n != 0
  | none => false

/-- The chat-platform facts `update_inventory_display` consults: whether
`bot.get_channel` finds the channel, whether `channel.fetch_message`
finds a message id (false embeds `discord.NotFound`), and the id the
platform would assign to a newly sent message. -/
structure DisplayEnv where
  channelExists : Nat → Bool
  messageExists : Nat → Bool
  newMessageId : Nat

/-- Outward message operations `update_inventory_display` performs, in
program order. -/
inductive DisplayAction where
  | editMessage (message_id : Nat)
  | sendMessage (message_id : Nat)
  | recordMessageId (message_id : Nat)
  | refreshPending (guild_id : Nat)
 deriving Repr, DecidableEq

/-- Method `InventoryManager.update_inventory_display`: bail out (False) when the
guild has no config, no truthy channel id, or the channel is gone; when a
message id is remembered, edit that message in place, and on
`discord.NotFound` fall through with `pass` (the enclosing `if` has no
further arm, so nothing is sent and the stale id stays recorded); only
when no message id is remembered send a fresh message and store its id via
`set_guild_config`.  Afterwards refresh the pending-request messages and
return True.  The surrounding `try`/`except` prints-and-returns-False on
other exceptions, which this pure embedding has none of. -/
def update_inventory_display (env : DisplayEnv) (db : Database) (gid : Nat) :
    Bool × Database × List DisplayAction :=
  match get_guild_config db gid with
  | none => (false, db, [])
  | some config =>
    if !truthy config.inventory_channel_id then (false, db, [])
    else if !env.channelExists (config.inventory_channel_id.getD 0) then
      (false, db, [])
    else
      if truthy config.inventory_message_id then
        let mid := config.inventory_message_id.getD 0
        if env.messageExists mid then
          (true, db, [DisplayAction.editMessage mid, DisplayAction.refreshPending gid])
        else
          (true, db, [DisplayAction.refreshPending gid])
      else
        let mid := env.newMessageId
        let db' := set_guild_config db gid
          { inventory_channel_id := none
            inventory_message_id := some (some mid)
            admin_role_ids := none }
        (true, db',
         [DisplayAction.sendMessage mid, DisplayAction.recordMessageId mid,
          DisplayAction.refreshPending gid])

/-- The per-item outcome strings `process_approved_request` builds,
abstracted to their four shapes: "Not found in inventory", "Rewarded
x/y (remaining: z)" with the checkmark used when `x = y`, the warning
variant otherwise, and "Failed to remove items". -/
inductive ItemResult where
  | notFound
  | rewardedFull (removed requested remaining : Int)
  | rewardedShort (removed requested remaining : Int)
  | removeFailed
 deriving Repr, DecidableEq

/-- Store-mutation / display steps of a lifecycle transition, in program
order, used to state the ordering guarantees. -/
inductive Event where
  | statusWrite (request_id : Nat) (status : String)
  | ledgerRemove (guild_id : Nat) (name : String) (amount : Int)
  | displayRefresh (guild_id : Nat)
 deriving Repr, DecidableEq

/-- The `for item_name, requested_qty in requested_items.items()` loop of
`InventoryManager.process_approved_request`: per item, look the item up;
if absent record a not-found result and continue; otherwise cap the
removal at the current stock (`will_remove`), remove that many units, and
record a full reward when `will_remove == requested_qty`, a short one
otherwise (or a failure when the UPDATE matched no row). -/
def processItems (gid : Nat) : Database → List (String × Int) →
    List (String × ItemResult) × Database × List Event
  | db, [] => ([], db, [])
  | db, (item_name, requested_qty) :: rest =>
    match get_item db gid item_name with
    | none =>
      ((item_name, ItemResult.notFound) :: (processItems gid db rest).1,
       (processItems gid db rest).2)
    | some current_item =>
      let will_remove :=
        if current_item.quantity < requested_qty then current_item.quantity
        else requested_qty
      let success := (remove_item_quantity db gid item_name will_remove).1
      let db1 := (remove_item_quantity db gid item_name will_remove).2
      let res :=
        if success then
          if will_remove == requested_qty then
            ItemResult.rewardedFull will_remove requested_qty
              (current_item.quantity - will_remove)
          else
            ItemResult.rewardedShort will_remove requested_qty
              (current_item.quantity - will_remove)
        else ItemResult.removeFailed
      ((item_name, res) :: (processItems gid db1 rest).1,
       (processItems gid db1 rest).2.1,
       Event.ledgerRemove gid item_name will_remove
         :: (processItems gid db1 rest).2.2)

/-- Method `InventoryManager.process_approved_request`: run the per-item loop,
then update the inventory display, returning the per-item results. -/
def process_approved_request (env : DisplayEnv) (db : Database)
    (request : ItemRequest) :
    List (String × ItemResult) × Database × List Event :=
  ((processItems request.guild_id db request.items).1,
   (update_inventory_display env
     (processItems request.guild_id db request.items).2.1 request.guild_id).2.1,
   (processItems request.guild_id db request.items).2.2
     ++ [Event.displayRefresh request.guild_id])

/-- Outcome of an approve-button press, after the request id has been
parsed from the embed title and the admin check has passed. -/
inductive ApproveOutcome where
  | requestNotFound
  | alreadyProcessed (status : String)
  | approved (results : List (String × ItemResult))
 deriving Repr, DecidableEq

/-- Method `PersistentRequestView.approve_button`, from the `db.get_request`
call on: missing request and non-pending request abort with an ephemeral
report and touch nothing; otherwise the status is written to "approved"
first and the request is then processed (embed editing and the courtesy
DM are outward-only and not part of the state). -/
def approve_button_action (env : DisplayEnv) (db : Database)
    (request_id : Nat) (now : String) :
    ApproveOutcome × Database × List Event :=
  match get_request db request_id with
  | none => (ApproveOutcome.requestNotFound, db, [])
  | some request =>
    if request.status != "pending" then
      (ApproveOutcome.alreadyProcessed request.status, db, [])
    else
      let db1 := (update_request_status db request_id "approved" now).2
      (ApproveOutcome.approved (process_approved_request env db1 request).1,
       (process_approved_request env db1 request).2.1,
       Event.statusWrite request_id "approved"
         :: (process_approved_request env db1 request).2.2)

/-- Outcome of submitting the deny-reason modal. -/
inductive DenyOutcome where
  | requestNotFound
  | alreadyProcessed (status : String)
  | denied (reason : String)
 deriving Repr, DecidableEq

/-- Method `PersistentDenyReasonModal.on_submit`: missing request and non-pending
request abort with an ephemeral report and touch nothing; otherwise the
status is written to "denied" and no ledger mutation occurs (embed
editing and the courtesy DM are outward-only). -/
def deny_modal_submit (db : Database) (request_id : Nat)
    (reason now : String) : DenyOutcome × Database × List Event :=
  match get_request db request_id with
  | none => (DenyOutcome.requestNotFound, db, [])
  | some request =>
    if request.status != "pending" then
      (DenyOutcome.alreadyProcessed request.status, db, [])
    else
      (DenyOutcome.denied reason,
       (update_request_status db request_id "denied" now).2,
       [Event.statusWrite request_id "denied"])

/-- Outcome of the `/request` slash command. -/
inductive RequestOutcome where
  | noValidItems
  | invalidItems (names : List String)
  | noValidatedItems
  | created (request_id : Nat)
 deriving Repr, DecidableEq

/-- The dict comprehension
`{item.name.lower(): item.name for item in guild_items}` of
`request_items`. -/
def guildItemNames (db : Database) (gid : Nat) : List (String × String) :=
  dictOf ((get_items db gid).map
    (fun it => (String.mk (chLower it.name.data), it.name)))

/-- One iteration of the validation loop of `request_items`: a
case-insensitive hit adds the canonical name with the requested quantity
to the validated dict; a miss appends the name to the invalid list. -/
def validateStep (names : List (String × String))
    (acc : List (String × Int) × List String) (p : String × Int) :
    List (String × Int) × List String :=
  match dictLookup names (String.mk (chLower p.1.data)) with
  | some canonical => (dictInsert acc.1 canonical p.2, acc.2)
  | none => (acc.1, acc.2 ++ [p.1])

/-- The whole validation loop of `request_items`. -/
def validateRequested (db : Database) (gid : Nat)
    (requested : List (String × Int)) :
    List (String × Int) × List String :=
  requested.foldl (validateStep (guildItemNames db gid)) ([], [])

/-- Method `InventoryCommands.request_items`: parse the free-form `items`
argument; reject when nothing parsed; build the lowercase-name → stored-name
dict over the guild's items; split the parsed pairs into validated
(canonical name, quantity) pairs and invalid names; reject when any name
is invalid, or when nothing validated; otherwise persist the request with
`create_request` (the public announcement and confirmation DM are
outward-only). -/
def request_items (db : Database) (gid uid : Nat) (uname now : String)
    (items_text : String) : RequestOutcome × Database :=
  let requested_items := parse_item_input items_text
  if requested_items.isEmpty then (RequestOutcome.noValidItems, db)
  else
    let validated := validateRequested db gid requested_items
    if !validated.2.isEmpty then (RequestOutcome.invalidItems validated.2, db)
    else if validated.1.isEmpty then (RequestOutcome.noValidatedItems, db)
    else
      (RequestOutcome.created (create_request db gid uid uname validated.1 now).1,
       (create_request db gid uid uname validated.1 now).2)

/-- The public operations of `Database`, one constructor per method. -/
inductive DbOp where
  | initDatabase
  | getGuildConfig
  | setGuildConfig
  | getItems
  | getItem
  | addItem
  | updateItemQuantity
  | addItemQuantity
  | removeItemQuantity
  | deleteItem
  | createRequest
  | getRequests
  | updateRequestStatus
  | getRequest
 deriving Repr, DecidableEq

/-- Which `Database` method bodies execute inside `with self.lock:` in
`src/database.py`: only `init_database`, `get_guild_config` and
`set_guild_config` do; every item and request method opens a connection
without touching the lock. -/
def opHoldsLock : DbOp → Bool
  | DbOp.initDatabase => true
  | DbOp.getGuildConfig => true
  | DbOp.setGuildConfig => true
  | _ => false

/-- An inventory with 100 Iron Ore and one pending request for 150. -/
def pendingReqDb : Database :=
  { guild_configs := [],
    items := [{ id := some 1, guild_id := 1, name := "Iron Ore",
                quantity := 100, description := none }],
    item_requests :=
      [{ id := some 1, guild_id := 1, user_id := 2, user_name := "u",
         items := [("Iron Ore", 150)], status := "pending",
         created_at := "t0", updated_at := none }],
    next_item_id := 2, next_request_id := 2 }

/-- A platform environment with no live channels for `pendingReqDb`. -/
def pendingReqEnv : DisplayEnv :=
  { channelExists := fun _ => false, messageExists := fun _ => false,
    newMessageId := 0 }

/-- A guild whose config remembers inventory message 7 in channel 5,
where the channel still exists but message 7 has been deleted. -/
def staleDisplayDb : Database :=
  { guild_configs :=
      [{ guild_id := 1, inventory_channel_id := some 5,
         inventory_message_id := some 7, admin_role_ids := "[]" }],
    items := [], item_requests := [], next_item_id := 1, next_request_id := 1 }

/-- Platform state for `staleDisplayDb`: channel 5 is live, every
`fetch_message` raises `discord.NotFound`. -/
def staleDisplayEnv : DisplayEnv :=
  { channelExists := fun c => c == 5, messageExists := fun _ => false,
    newMessageId := 99 }

/-- The inventory used to instantiate C4: one item with 100 units. -/
def ironDb : Database :=
  { guild_configs := [],
    items := [{ id := some 1, guild_id := 1, name := "Iron Ore",
                quantity := 100, description := none }],
    item_requests := [], next_item_id := 2, next_request_id := 1 }

/-- The guild config produced by setup: channel 5 recorded, message 7
recorded, no admin roles yet. -/
def setupDb : Database :=
  { guild_configs :=
      [{ guild_id := 1, inventory_channel_id := some 5,
         inventory_message_id := some 7, admin_role_ids := "[]" }],
    items := [], item_requests := [], next_item_id := 1, next_request_id := 1 }

/-- A store holding one already-approved request. -/
def approvedReqDb : Database :=
  { guild_configs := [], items := [],
    item_requests :=
      [{ id := some 1, guild_id := 1, user_id := 2, user_name := "u",
         items := [("Iron Ore", 1)], status := "approved",
         created_at := "t0", updated_at := some "t1" }],
    next_item_id := 1, next_request_id := 2 }

/-- A platform environment with no live channels or messages. -/
def trivialEnv : DisplayEnv :=
  { channelExists := fun _ => false, messageExists := fun _ => false,
    newMessageId := 0 }

/-- A list whose `head?` exists contains that element. -/
theorem head?_some_mem {α : Type} {l : List α} {a : α} (h : l.head? = some a) :
    a ∈ l := by
  cases l with
  | nil => exact absurd h (by simp)
  | cons b t =>
    have hb : b = a := by simpa using h
    exact hb ▸ List.mem_cons_self b t

/-- An update that fires only on `p`-rows and never changes `q`-status
commutes with filtering on `q`. -/
theorem filter_map_ite {α : Type} (l : List α) (q p : α → Bool) (f : α → α)
    (hq : ∀ x, q (f x) = q x) :
    (l.map (fun x => if p x then f x else x)).filter q
      = (l.filter q).map (fun x => if p x then f x else x) := by
  rw [List.filter_map]
  congr 1
  apply List.filter_congr
  intro a _
  by_cases hp : p a = true
  · simp only [Function.comp_apply, hp, if_true]
    exact hq a
  · simp [hp]

/-- The `head?` version of `filter_map_ite`: the first `q`-row after a
row-wise conditional update is the conditional update of the first
`q`-row. -/
theorem head?_filter_map_ite {α : Type} (l : List α) (q p : α → Bool)
    (f : α → α) (hq : ∀ x, q (f x) = q x) :
    ((l.map (fun x => if p x then f x else x)).filter q).head?
      = ((l.filter q).head?).map (fun x => if p x then f x else x) := by
  rw [filter_map_ite l q p f hq, List.head?_map]

/-- Reading `itemMatches` unfolded to propositional equalities. -/
theorem itemMatches_iff {gid : Nat} {name : String} {it : Item} :
    itemMatches gid name it = true ↔ it.guild_id = gid ∧ it.name = name := by
  simp [itemMatches]

/-- A row found by `get_item` matches the key and belongs to the table. -/
theorem get_item_matches {db : Database} {gid : Nat} {name : String}
    {it : Item} (h : get_item db gid name = some it) :
    itemMatches gid name it = true ∧ it ∈ db.items := by
  have h' : (db.items.filter (itemMatches gid name)).head? = some it := h
  have hmem := head?_some_mem h'
  rw [List.mem_filter] at hmem
  exact ⟨hmem.2, hmem.1⟩

/-- A row found by `get_item` makes the UPDATE row filter match. -/
theorem get_item_any {db : Database} {gid : Nat} {name : String} {it : Item}
    (h : get_item db gid name = some it) :
    db.items.any (itemMatches gid name) = true := by
  rcases get_item_matches h with ⟨hm, hmem⟩
  exact List.any_eq_true.mpr ⟨it, hmem, hm⟩

/-- Computing `get_item` after a conditional row-wise update of the items table. -/
theorem get_item_after_map (db : Database) (gid : Nat) (name : String)
    (p : Item → Bool) (f : Item → Item)
    (hf : ∀ it, (f it).guild_id = it.guild_id) (hf2 : ∀ it, (f it).name = it.name) :
    get_item
        { db with items := db.items.map (fun it => if p it then f it else it) }
        gid name
      = (get_item db gid name).map (fun it => if p it then f it else it) := by
  show ((db.items.map (fun it => if p it then f it else it)).filter
      (itemMatches gid name)).head?
    = ((db.items.filter (itemMatches gid name)).head?).map
        (fun it => if p it then f it else it)
  refine head?_filter_map_ite _ _ _ _ (fun it => ?_)
  simp [itemMatches, hf, hf2]

/-- Computing `get_item` through `remove_item_quantity`. -/
theorem get_item_remove (db : Database) (gid : Nat) (name name' : String)
    (r : Int) :
    get_item (remove_item_quantity db gid name' r).2 gid name
      = (get_item db gid name).map
          (fun it => if itemMatches gid name' it then
            { it with quantity := max 0 (it.quantity - r) } else it) :=
  get_item_after_map db gid name _ _ (fun _ => rfl) (fun _ => rfl)

/-- Removing from an item found by `get_item` clamps its stock at zero. -/
theorem get_item_remove_self {db : Database} {gid : Nat} {name : String}
    {r : Int} {it : Item} (h : get_item db gid name = some it) :
    get_item (remove_item_quantity db gid name r).2 gid name
      = some { it with quantity := max 0 (it.quantity - r) } := by
  rw [get_item_remove, h]
  have hm := (get_item_matches h).1
  simp [hm]

/-- Removing from one item name leaves every other name's row alone. -/
theorem get_item_remove_other {db : Database} {gid : Nat}
    {name name' : String} {r : Int} (hne : name ≠ name') :
    get_item (remove_item_quantity db gid name' r).2 gid name
      = get_item db gid name := by
  rw [get_item_remove]
  cases h : get_item db gid name with
  | none => rfl
  | some it =>
    rcases itemMatches_iff.mp (get_item_matches h).1 with ⟨hg, hn⟩
    have hfalse : itemMatches gid name' it = false := by
      simp [itemMatches, hn]
      intro _
      exact hne
    simp [hfalse]

/-- Frame rule: `remove_item_quantity` touches only the items table. -/
theorem remove_item_quantity_frame (db : Database) (gid : Nat) (name : String)
    (r : Int) :
    (remove_item_quantity db gid name r).2.item_requests = db.item_requests ∧
    (remove_item_quantity db gid name r).2.guild_configs = db.guild_configs :=
  ⟨rfl, rfl⟩

/-- Frame rule: `update_request_status` touches only the requests table. -/
theorem update_request_status_frame (db : Database) (rid : Nat)
    (s now : String) :
    (update_request_status db rid s now).2.items = db.items ∧
    (update_request_status db rid s now).2.guild_configs = db.guild_configs :=
  ⟨rfl, rfl⟩

/-- Frame rule: `set_guild_config` touches only the configs table. -/
theorem set_guild_config_frame (db : Database) (gid : Nat) (kw : ConfigKwargs) :
    (set_guild_config db gid kw).items = db.items ∧
    (set_guild_config db gid kw).item_requests = db.item_requests := by
  unfold set_guild_config
  split <;> exact ⟨rfl, rfl⟩

/-- The display synchronizer never changes the items or requests tables. -/
theorem update_inventory_display_frame (env : DisplayEnv) (db : Database)
    (gid : Nat) :
    (update_inventory_display env db gid).2.1.items = db.items ∧
    (update_inventory_display env db gid).2.1.item_requests = db.item_requests := by
  unfold update_inventory_display
  cases get_guild_config db gid with
  | none => exact ⟨rfl, rfl⟩
  | some config =>
    dsimp only
    split
    · exact ⟨rfl, rfl⟩
    · split
      · exact ⟨rfl, rfl⟩
      · split
        · split <;> exact ⟨rfl, rfl⟩
        · exact set_guild_config_frame db gid _

/-- The value of `get_item` only reads the items table. -/
theorem get_item_congr {db db' : Database} (h : db'.items = db.items)
    (gid : Nat) (name : String) :
    get_item db' gid name = get_item db gid name := by
  show (db'.items.filter (itemMatches gid name)).head?
    = (db.items.filter (itemMatches gid name)).head?
  rw [h]

/-- The value of `get_request` only reads the requests table. -/
theorem get_request_congr {db db' : Database}
    (h : db'.item_requests = db.item_requests) (rid : Nat) :
    get_request db' rid = get_request db rid := by
  show (db'.item_requests.filter (reqMatches rid)).head?
    = (db.item_requests.filter (reqMatches rid)).head?
  rw [h]

/-- A row found by `get_request` matches the key and belongs to the table. -/
theorem get_request_matches {db : Database} {rid : Nat} {req : ItemRequest}
    (h : get_request db rid = some req) :
    reqMatches rid req = true ∧ req ∈ db.item_requests := by
  have h' : (db.item_requests.filter (reqMatches rid)).head? = some req := h
  have hmem := head?_some_mem h'
  rw [List.mem_filter] at hmem
  exact ⟨hmem.2, hmem.1⟩

/-- Computing `get_request` after a conditional row-wise update of the requests
table. -/
theorem get_request_after_map (db : Database) (rid : Nat)
    (p : ItemRequest → Bool) (f : ItemRequest → ItemRequest)
    (hf : ∀ r, reqMatches rid (f r) = reqMatches rid r) :
    get_request
        { db with item_requests :=
            db.item_requests.map (fun r => if p r then f r else r) } rid
      = (get_request db rid).map (fun r => if p r then f r else r) := by
  show ((db.item_requests.map (fun r => if p r then f r else r)).filter
      (reqMatches rid)).head?
    = ((db.item_requests.filter (reqMatches rid)).head?).map
        (fun r => if p r then f r else r)
  exact head?_filter_map_ite _ _ _ _ hf

/-- A row found by `get_guild_config` matches the key and belongs to the
table. -/
theorem get_guild_config_matches {db : Database} {gid : Nat}
    {cfg : GuildConfig} (h : get_guild_config db gid = some cfg) :
    cfgMatches gid cfg = true ∧ cfg ∈ db.guild_configs := by
  have h' : (db.guild_configs.filter (cfgMatches gid)).head? = some cfg := h
  have hmem := head?_some_mem h'
  rw [List.mem_filter] at hmem
  exact ⟨hmem.2, hmem.1⟩

/-- Computing `get_guild_config` after a conditional row-wise update of the configs
table. -/
theorem get_guild_config_after_map (db : Database) (gid : Nat)
    (p : GuildConfig → Bool) (f : GuildConfig → GuildConfig)
    (hf : ∀ c, cfgMatches gid (f c) = cfgMatches gid c) :
    get_guild_config
        { db with guild_configs :=
            db.guild_configs.map (fun c => if p c then f c else c) } gid
      = (get_guild_config db gid).map (fun c => if p c then f c else c) := by
  show ((db.guild_configs.map (fun c => if p c then f c else c)).filter
      (cfgMatches gid)).head?
    = ((db.guild_configs.filter (cfgMatches gid)).head?).map
        (fun c => if p c then f c else c)
  exact head?_filter_map_ite _ _ _ _ hf

/-- Writing a status through `update_request_status` updates exactly the
row `get_request` sees, stamping `updated_at`. -/
theorem get_request_update_self {db : Database} {rid : Nat}
    {req : ItemRequest} (s now : String) (h : get_request db rid = some req) :
    get_request (update_request_status db rid s now).2 rid
      = some { req with status := s, updated_at := some now } := by
  have step := get_request_after_map db rid (reqMatches rid)
    (fun r => { r with status := s, updated_at := some now }) (fun _ => rfl)
  have hm := (get_request_matches h).1
  rw [show (update_request_status db rid s now).2
      = { db with item_requests :=
          db.item_requests.map (fun r => if reqMatches rid r then
            { r with status := s, updated_at := some now } else r) } from rfl]
  rw [step, h]
  simp [hm]

/-- The value of `List.any` only depends on the predicate's values on members. -/
theorem any_congr_mem {α : Type} {l : List α} {p q : α → Bool}
    (h : ∀ x ∈ l, p x = q x) : l.any p = l.any q := by
  induction l with
  | nil => rfl
  | cons a t ih =>
    simp only [List.any_cons]
    rw [h a (List.mem_cons_self a t),
      ih (fun x hx => h x (List.mem_cons_of_mem a hx))]

/-- A `find?` call succeeds exactly when `any` holds. -/
theorem find?_isSome_eq_any {α : Type} (p : α → Bool) (l : List α) :
    (l.find? p).isSome = l.any p := by
  induction l with
  | nil => rfl
  | cons a t ih =>
    by_cases h : p a = true
    · simp [List.find?_cons_of_pos _ h, h]
    · have h' : p a = false := by simpa using h
      simp [List.find?_cons_of_neg _ h, h', ih]

/-- Python `k in d` agrees with scanning the key column. -/
theorem dictLookup_isSome_eq_any {α : Type} (d : List (String × α))
    (k : String) :
    (dictLookup d k).isSome = d.any (fun p => p.1 == k) := by
  unfold dictLookup
  rw [← find?_isSome_eq_any (fun p => p.1 == k) d]
  cases d.find? (fun p => p.1 == k) with
  | none => rfl
  | some p => rfl

/-- Inserting with `dictInsert` adds exactly one key to the key set. -/
theorem any_key_dictInsert {α : Type} (d : List (String × α)) (a : String)
    (b : α) (k : String) :
    (dictInsert d a b).any (fun p => p.1 == k)
      = (d.any (fun p => p.1 == k) || (a == k)) := by
  unfold dictInsert
  by_cases h : d.any (fun p => p.1 == a) = true
  · rw [if_pos h, List.any_map]
    have hpt : ∀ p : String × α,
        ((fun p => p.1 == k) ∘ fun p => if p.1 == a then (a, b) else p) p
          = (p.1 == k) := by
      intro p
      by_cases hpa : (p.1 == a) = true
      · have hp : p.1 = a := by simpa using hpa
        simp [hpa, hp]
      · have hp : p.1 ≠ a := by simpa using hpa
        simp [hpa, hp]
    rw [any_congr_mem (fun p _ => hpt p)]
    by_cases hak : (a == k) = true
    · have ha : a = k := by simpa using hak
      subst ha
      rw [h]
      rfl
    · have hak' : (a == k) = false := by simpa using hak
      rw [hak']
      simp
  · rw [if_neg h, List.any_append]
    simp

/-- Folding `dictInsert` over pairs creates exactly the pairs' key set. -/
theorem any_key_foldl_dictInsert {α : Type} (l : List (String × α)) :
    ∀ (d : List (String × α)) (k : String),
    ((l.foldl (fun d p => dictInsert d p.1 p.2) d).any (fun p => p.1 == k))
      = (d.any (fun p => p.1 == k) || l.any (fun p => p.1 == k)) := by
  induction l with
  | nil => intro d k; simp
  | cons a t ih =>
    intro d k
    simp only [List.foldl_cons, List.any_cons]
    rw [ih, any_key_dictInsert, Bool.or_assoc]

/-- Membership in a Python dict comprehension is membership of the key in
the comprehended pairs. -/
theorem dictOf_hasKey {α : Type} (l : List (String × α)) (k : String) :
    (dictLookup (dictOf l) k).isSome = l.any (fun p => p.1 == k) := by
  rw [dictLookup_isSome_eq_any]
  unfold dictOf
  rw [any_key_foldl_dictInsert]
  simp

/-- The invalid-name list built by the `request_items` validation loop is
exactly the parsed names whose lowercase form misses the guild dict. -/
theorem validate_fold_invalid (names : List (String × String)) :
    ∀ (l : List (String × Int)) (acc : List (String × Int) × List String),
    (l.foldl (validateStep names) acc).2
      = acc.2 ++ (l.filter (fun p =>
          (dictLookup names (String.mk (chLower p.1.data))).isNone)).map
          Prod.fst := by
  intro l
  induction l with
  | nil => intro acc; simp
  | cons a t ih =>
    intro acc
    simp only [List.foldl_cons]
    rw [ih]
    cases hl : dictLookup names (String.mk (chLower a.1.data)) with
    | some c =>
      have hstep : validateStep names acc a = (dictInsert acc.1 c a.2, acc.2) := by
        unfold validateStep
        rw [hl]
      rw [hstep, List.filter_cons]
      simp [hl]
    | none =>
      have hstep : validateStep names acc a = (acc.1, acc.2 ++ [a.1]) := by
        unfold validateStep
        rw [hl]
      rw [hstep, List.filter_cons]
      simp [hl]

/-- The source's `will_remove` computation is the minimum of the request
and the stock. -/
theorem ite_lt_eq_min (a b : Int) : (if a < b then a else b) = min b a := by
  rcases le_or_lt b a with h | h
  · rw [if_neg (not_lt.mpr h), min_eq_left h]
  · rw [if_pos h, min_eq_right h.le]

/-- Removing at most the stock never trips the zero clamp. -/
theorem max_zero_sub_min (a q : Int) : max 0 (a - min q a) = a - min q a := by
  have hle : min q a ≤ a := min_le_right q a
  apply max_eq_right
  omega

/-- Evaluating `processItems` on the empty request list. -/
theorem processItems_nil (gid : Nat) (db : Database) :
    processItems gid db [] = ([], db, []) := rfl

/-- The `processItems` step when the item is missing. -/
theorem processItems_cons_none {gid : Nat} {db : Database} {n : String}
    {q : Int} (rest : List (String × Int)) (h : get_item db gid n = none) :
    processItems gid db ((n, q) :: rest)
      = ((n, ItemResult.notFound) :: (processItems gid db rest).1,
         (processItems gid db rest).2) := by
  simp only [processItems, h]

/-- The `processItems` step when the item is found: remove the minimum of
stock and request and report full or short accordingly. -/
theorem processItems_cons_some {gid : Nat} {db : Database} {n : String}
    {q : Int} {it : Item} (rest : List (String × Int))
    (h : get_item db gid n = some it) :
    processItems gid db ((n, q) :: rest)
      = ((n, if (min q it.quantity) == q then
              ItemResult.rewardedFull (min q it.quantity) q
                (it.quantity - min q it.quantity)
            else
              ItemResult.rewardedShort (min q it.quantity) q
                (it.quantity - min q it.quantity))
          :: (processItems gid
              (remove_item_quantity db gid n (min q it.quantity)).2 rest).1,
         (processItems gid
            (remove_item_quantity db gid n (min q it.quantity)).2 rest).2.1,
         Event.ledgerRemove gid n (min q it.quantity)
           :: (processItems gid
              (remove_item_quantity db gid n (min q it.quantity)).2 rest).2.2) := by
  have hsuccess : (remove_item_quantity db gid n (min q it.quantity)).1
      = true := get_item_any h
  simp only [processItems, h, ite_lt_eq_min, hsuccess, if_true]

/-- Behaviour of the per-item approval loop on a request whose item names
are distinct (request items come from a Python dict, so keys are unique):
results cover every requested name in order, every emitted event is a
ledger removal, the other tables are untouched, unrequested items keep
their rows, and each requested item is settled against its stock at entry:
a missing item reports not-found, a present one loses exactly
`min(requested, stock)` units and reports full exactly when the minimum is
the requested amount. -/
theorem processItems_spec (gid : Nat) (ps : List (String × Int)) :
    ∀ (db : Database), (ps.map Prod.fst).Nodup →
    ((processItems gid db ps).1.map Prod.fst = ps.map Prod.fst) ∧
    (∀ e ∈ (processItems gid db ps).2.2, ∃ n a, e = Event.ledgerRemove gid n a) ∧
    (processItems gid db ps).2.1.item_requests = db.item_requests ∧
    (processItems gid db ps).2.1.guild_configs = db.guild_configs ∧
    (∀ n, n ∉ ps.map Prod.fst →
      get_item (processItems gid db ps).2.1 gid n = get_item db gid n) ∧
    (∀ n q, (n, q) ∈ ps →
      (get_item db gid n = none →
        (n, ItemResult.notFound) ∈ (processItems gid db ps).1 ∧
        get_item (processItems gid db ps).2.1 gid n = none) ∧
      (∀ it, get_item db gid n = some it →
        get_item (processItems gid db ps).2.1 gid n
          = some { it with quantity := it.quantity - min q it.quantity } ∧
        (min q it.quantity = q →
          (n, ItemResult.rewardedFull (min q it.quantity) q
            (it.quantity - min q it.quantity)) ∈ (processItems gid db ps).1) ∧
        (min q it.quantity ≠ q →
          (n, ItemResult.rewardedShort (min q it.quantity) q
            (it.quantity - min q it.quantity)) ∈ (processItems gid db ps).1))) := by
  induction ps with
  | nil =>
    intro db _
    refine ⟨rfl, ?_, rfl, rfl, ?_, ?_⟩
    · intro e he
      cases he
    · intro n _
      rfl
    · intro n q hmem
      cases hmem
  | cons hd rest ih =>
    obtain ⟨n, q⟩ := hd
    intro db hnodup
    rw [List.map_cons, List.nodup_cons] at hnodup
    obtain ⟨hn_notin, hnd⟩ := hnodup
    cases hget : get_item db gid n with
    | none =>
      rw [processItems_cons_none rest hget]
      obtain ⟨ih1, ih2, ih3, ih4, ih5, ih6⟩ := ih db hnd
      refine ⟨by simp [ih1], ih2, ih3, ih4, ?_, ?_⟩
      · intro m hm
        rw [List.map_cons, List.mem_cons] at hm
        push_neg at hm
        exact ih5 m hm.2
      · intro m mq hmem
        rcases List.mem_cons.mp hmem with hhd | htl
        · obtain ⟨rfl, rfl⟩ : m = n ∧ mq = q := by
            injection hhd with h1 h2
            exact ⟨h1, h2⟩
          constructor
          · intro _
            exact ⟨List.mem_cons_self _ _, by rw [ih5 m hn_notin]; exact hget⟩
          · intro it hit
            rw [hget] at hit
            cases hit
        · constructor
          · intro h0
            obtain ⟨hres, hdb⟩ := ((ih6 m mq htl).1) h0
            exact ⟨List.mem_cons_of_mem _ hres, hdb⟩
          · intro it hit
            obtain ⟨hdb, hfull, hshort⟩ := ((ih6 m mq htl).2) it hit
            exact ⟨hdb, fun hm => List.mem_cons_of_mem _ (hfull hm),
              fun hm => List.mem_cons_of_mem _ (hshort hm)⟩
    | some it =>
      rw [processItems_cons_some rest hget]
      obtain ⟨ih1, ih2, ih3, ih4, ih5, ih6⟩ :=
        ih (remove_item_quantity db gid n (min q it.quantity)).2 hnd
      refine ⟨by simp [ih1], ?_, ?_, ?_, ?_, ?_⟩
      · intro e he
        rcases List.mem_cons.mp he with hhd | htl
        · exact ⟨n, min q it.quantity, hhd⟩
        · exact ih2 e htl
      · rw [ih3]
        rfl
      · rw [ih4]
        rfl
      · intro m hm
        rw [List.map_cons, List.mem_cons] at hm
        push_neg at hm
        rw [ih5 m hm.2]
        exact get_item_remove_other hm.1
      · intro m mq hmem
        rcases List.mem_cons.mp hmem with hhd | htl
        · obtain ⟨rfl, rfl⟩ : m = n ∧ mq = q := by
            injection hhd with h1 h2
            exact ⟨h1, h2⟩
          constructor
          · intro h0
            rw [hget] at h0
            cases h0
          · intro it' hit'
            rw [hget] at hit'
            injection hit' with hii
            subst hii
            have hfinal : get_item (processItems gid
                (remove_item_quantity db gid m (min mq it.quantity)).2 rest).2.1
                gid m
                = some { it with quantity :=
                    it.quantity - min mq it.quantity } := by
              rw [ih5 m hn_notin, get_item_remove_self hget,
                max_zero_sub_min]
            refine ⟨hfinal, ?_, ?_⟩
            · intro hminq
              have hbeq : ((min mq it.quantity) == mq) = true :=
                beq_iff_eq.mpr hminq
              rw [hbeq]
              exact List.mem_cons_self _ _
            · intro hminq
              have hbeq : ((min mq it.quantity) == mq) = false := by
                simpa using hminq
              rw [hbeq]
              exact List.mem_cons_self _ _
        · have hm_ne : m ≠ n := by
            intro hcon
            subst hcon
            exact hn_notin (List.mem_map.mpr ⟨(m, mq), htl, rfl⟩)
          have hswap : get_item
              (remove_item_quantity db gid n (min q it.quantity)).2 gid m
              = get_item db gid m := get_item_remove_other hm_ne
          have ih6' := ih6 m mq htl
          rw [hswap] at ih6'
          constructor
          · intro h0
            obtain ⟨hres, hdb⟩ := ih6'.1 h0
            exact ⟨List.mem_cons_of_mem _ hres, hdb⟩
          · intro it' hit'
            obtain ⟨hdb, hfull, hshort⟩ := ih6'.2 it' hit'
            exact ⟨hdb, fun hm => List.mem_cons_of_mem _ (hfull hm),
              fun hm => List.mem_cons_of_mem _ (hshort hm)⟩

/-- C2: approving a pending request writes the status first, then settles
each requested (name, qty) pair independently — absent items report
not-found, present ones lose exactly `min(qty, stock)` units and report
full exactly when `min(qty, stock) = qty` — and the trace ends with the
display refresh after all ledger removals; the final store still shows the
request approved (never rolled back) with its `updated_at` stamped. -/
theorem approve_pending_processes (env : DisplayEnv) (db : Database)
    (rid : Nat) (now : String) (req : ItemRequest)
    (hreq : get_request db rid = some req)
    (hpend : req.status = "pending")
    (hnodup : (req.items.map Prod.fst).Nodup) :
    ∃ results inner db',
      approve_button_action env db rid now
        = (ApproveOutcome.approved results, db',
           Event.statusWrite rid "approved"
             :: (inner ++ [Event.displayRefresh req.guild_id])) ∧
      (∀ e ∈ inner, ∃ n a, e = Event.ledgerRemove req.guild_id n a) ∧
      results.map Prod.fst = req.items.map Prod.fst ∧
      (∃ req', get_request db' rid = some req' ∧
         req'.status = "approved" ∧ req'.updated_at = some now) ∧
      (∀ n q, (n, q) ∈ req.items →
        (get_item db req.guild_id n = none →
          (n, ItemResult.notFound) ∈ results) ∧
        (∀ it, get_item db req.guild_id n = some it →
          (∃ it', get_item db' req.guild_id n = some it' ∧
             it'.quantity = it.quantity - min q it.quantity) ∧
          (min q it.quantity = q →
            (n, ItemResult.rewardedFull (min q it.quantity) q
              (it.quantity - min q it.quantity)) ∈ results) ∧
          (min q it.quantity ≠ q →
            (n, ItemResult.rewardedShort (min q it.quantity) q
              (it.quantity - min q it.quantity)) ∈ results))) := by
  have hne : (req.status != "pending") = false := by
    rw [hpend]
    rfl
  have hcond : ¬((req.status != "pending") = true) := by
    rw [hne]
    intro hcontra
    cases hcontra
  have hshape : approve_button_action env db rid now
      = (ApproveOutcome.approved (processItems req.guild_id
            (update_request_status db rid "approved" now).2 req.items).1,
         (update_inventory_display env
           (processItems req.guild_id
             (update_request_status db rid "approved" now).2 req.items).2.1
           req.guild_id).2.1,
         Event.statusWrite rid "approved"
           :: ((processItems req.guild_id
                (update_request_status db rid "approved" now).2 req.items).2.2
              ++ [Event.displayRefresh req.guild_id])) := by
    simp only [approve_button_action, hreq]
    rw [if_neg hcond]
    simp only [process_approved_request]
  obtain ⟨ih1, ih2, ih3, _, ih5, ih6⟩ :=
    processItems_spec req.guild_id req.items
      (update_request_status db rid "approved" now).2 hnodup
  have hsame : ∀ nm, get_item
      (update_request_status db rid "approved" now).2 req.guild_id nm
      = get_item db req.guild_id nm :=
    fun nm => get_item_congr rfl req.guild_id nm
  have hframe := update_inventory_display_frame env
    (processItems req.guild_id
      (update_request_status db rid "approved" now).2 req.items).2.1
    req.guild_id
  refine ⟨_, _, _, hshape, ih2, ih1, ?_, ?_⟩
  · refine ⟨{ req with status := "approved", updated_at := some now }, ?_, rfl, rfl⟩
    rw [get_request_congr (hframe.2.trans ih3) rid]
    exact get_request_update_self "approved" now hreq
  · intro n q hmem
    constructor
    · intro h0
      exact ((ih6 n q hmem).1 (by rw [hsame n]; exact h0)).1
    · intro it hit
      obtain ⟨hdb, hfull, hshort⟩ :=
        (ih6 n q hmem).2 it (by rw [hsame n]; exact hit)
      refine ⟨⟨{ it with quantity := it.quantity - min q it.quantity }, ?_, rfl⟩,
        hfull, hshort⟩
      rw [get_item_congr hframe.1 req.guild_id n]
      exact hdb

/-- C2 witness: approving the pending 150-Iron-Ore request against a
stock of 100 goes through the theorem at a concrete store. -/
theorem approve_pending_processes_witness :
    (get_request pendingReqDb 1
       = some { id := some 1, guild_id := 1, user_id := 2, user_name := "u",
                items := [("Iron Ore", 150)], status := "pending",
                created_at := "t0", updated_at := none } ∧
     ([("Iron Ore", (150 : Int))].map Prod.fst).Nodup) ∧
    (∃ results inner db',
      approve_button_action pendingReqEnv pendingReqDb 1 "t1"
        = (ApproveOutcome.approved results, db',
           Event.statusWrite 1 "approved"
             :: (inner ++ [Event.displayRefresh 1])) ∧
      (∀ e ∈ inner, ∃ n a, e = Event.ledgerRemove 1 n a) ∧
      results.map Prod.fst = [("Iron Ore", (150 : Int))].map Prod.fst ∧
      (∃ req', get_request db' 1 = some req' ∧
         req'.status = "approved" ∧ req'.updated_at = some "t1") ∧
      (∀ n q, (n, q) ∈ [("Iron Ore", (150 : Int))] →
        (get_item pendingReqDb 1 n = none →
          (n, ItemResult.notFound) ∈ results) ∧
        (∀ it, get_item pendingReqDb 1 n = some it →
          (∃ it', get_item db' 1 n = some it' ∧
             it'.quantity = it.quantity - min q it.quantity) ∧
          (min q it.quantity = q →
            (n, ItemResult.rewardedFull (min q it.quantity) q
              (it.quantity - min q it.quantity)) ∈ results) ∧
          (min q it.quantity ≠ q →
            (n, ItemResult.rewardedShort (min q it.quantity) q
              (it.quantity - min q it.quantity)) ∈ results)))) :=
  ⟨⟨by decide, by decide⟩,
   approve_pending_processes pendingReqEnv pendingReqDb 1 "t1"
     { id := some 1, guild_id := 1, user_id := 2, user_name := "u",
       items := [("Iron Ore", 150)], status := "pending",
       created_at := "t0", updated_at := none }
     (by decide) rfl (by decide)⟩

/-- C3: a request whose parse produced nothing, or contains a name with
no case-insensitive match among the guild's items, is rejected outright:
no `created` outcome, and the `item_requests` table is untouched. -/
theorem request_items_rejects_unmatched (db : Database) (gid uid : Nat)
    (uname now text : String)
    (h : parse_item_input text = [] ∨
      ∃ p ∈ parse_item_input text, ∀ it ∈ db.items,
        it.guild_id = gid → chLower it.name.data ≠ chLower p.1.data) :
    (request_items db gid uid uname now text).2.item_requests
      = db.item_requests ∧
    ∀ rid, (request_items db gid uid uname now text).1
      ≠ RequestOutcome.created rid := by
  by_cases hemp : (parse_item_input text).isEmpty = true
  · simp only [request_items]
    rw [if_pos hemp]
    exact ⟨rfl, fun rid hcon => by cases hcon⟩
  · have hcase : ∃ p ∈ parse_item_input text, ∀ it ∈ db.items,
        it.guild_id = gid → chLower it.name.data ≠ chLower p.1.data := by
      rcases h with h0 | h1
      · exact absurd (by rw [h0]; rfl) hemp
      · exact h1
    rcases hcase with ⟨p, hp, hbad⟩
    have hkeyfalse : ((get_items db gid).map
        (fun it => (String.mk (chLower it.name.data), it.name))).any
        (fun q => q.1 == String.mk (chLower p.1.data)) = false := by
      apply Bool.eq_false_iff.mpr
      intro hcontra
      rcases List.any_eq_true.mp hcontra with ⟨qpair, hqmem, hbeq⟩
      rcases List.mem_map.mp hqmem with ⟨it, hmem, rfl⟩
      have heq : String.mk (chLower it.name.data)
          = String.mk (chLower p.1.data) := by simpa using hbeq
      have heq' : chLower it.name.data = chLower p.1.data := by
        injection heq
      have hmem' : it ∈ db.items.filter (fun x => x.guild_id == gid) :=
        (List.perm_insertionSort (fun a b : Item => a.name ≤ b.name)
          (db.items.filter (fun x => x.guild_id == gid))).mem_iff.mp hmem
      rw [List.mem_filter] at hmem'
      exact hbad it hmem'.1 (by simpa using hmem'.2) heq'
    have hnone : dictLookup (guildItemNames db gid)
        (String.mk (chLower p.1.data)) = none := by
      have hiss : (dictLookup (guildItemNames db gid)
          (String.mk (chLower p.1.data))).isSome = false := by
        unfold guildItemNames
        rw [dictOf_hasKey, hkeyfalse]
      cases hfind : dictLookup (guildItemNames db gid)
          (String.mk (chLower p.1.data)) with
      | none => rfl
      | some c => rw [hfind] at hiss; simp at hiss
    have hinvmem : p.1 ∈ (validateRequested db gid (parse_item_input text)).2 := by
      unfold validateRequested
      rw [validate_fold_invalid]
      rw [List.nil_append]
      exact List.mem_map_of_mem Prod.fst
        (List.mem_filter.mpr ⟨hp, by rw [hnone]; rfl⟩)
    have hinv_ne : (validateRequested db gid (parse_item_input text)).2 ≠ [] := by
      intro hnil
      rw [hnil] at hinvmem
      cases hinvmem
    have hbool : ((validateRequested db gid (parse_item_input text)).2.isEmpty)
        = false := by
      cases hV : (validateRequested db gid (parse_item_input text)).2 with
      | nil => exact absurd hV hinv_ne
      | cons a t => rfl
    simp only [request_items]
    rw [if_neg hemp,
      if_pos (show (!(validateRequested db gid
        (parse_item_input text)).2.isEmpty) = true by rw [hbool]; rfl)]
    exact ⟨rfl, fun rid hcon => by cases hcon⟩

/-- C3 witness: requesting "Iron Ore: 5" from a guild with an empty item
table is rejected with no persisted request row. -/
theorem request_items_rejects_unmatched_witness :
    (parse_item_input "Iron Ore: 5" = [] ∨
     ∃ p ∈ parse_item_input "Iron Ore: 5",
       ∀ it ∈ (Database.mk [] [] [] 1 1).items,
         it.guild_id = 1 → chLower it.name.data ≠ chLower p.1.data) ∧
    ((request_items (Database.mk [] [] [] 1 1) 1 2 "u" "t"
        "Iron Ore: 5").2.item_requests
      = (Database.mk [] [] [] 1 1).item_requests ∧
     ∀ rid, (request_items (Database.mk [] [] [] 1 1) 1 2 "u" "t"
        "Iron Ore: 5").1 ≠ RequestOutcome.created rid) :=
  ⟨by decide,
   request_items_rejects_unmatched (Database.mk [] [] [] 1 1) 1 2 "u" "t"
     "Iron Ore: 5" (by decide)⟩

/-- C7 counterexample: the claim says every store operation runs under
the process-wide lock, but the item getters, the three quantity
mutations, and every request operation run without acquiring it. -/
theorem store_ops_not_all_locked :
    opHoldsLock DbOp.getItems = false ∧
    opHoldsLock DbOp.getItem = false ∧
    opHoldsLock DbOp.addItem = false ∧
    opHoldsLock DbOp.updateItemQuantity = false ∧
    opHoldsLock DbOp.addItemQuantity = false ∧
    opHoldsLock DbOp.removeItemQuantity = false ∧
    opHoldsLock DbOp.deleteItem = false ∧
    opHoldsLock DbOp.createRequest = false ∧
    opHoldsLock DbOp.getRequests = false ∧
    opHoldsLock DbOp.updateRequestStatus = false ∧
    opHoldsLock DbOp.getRequest = false :=
  ⟨rfl, rfl, rfl, rfl, rfl, rfl, rfl, rfl, rfl, rfl, rfl⟩

/-- C7 (amended): exactly `init_database`, `get_guild_config` and
`set_guild_config` execute inside `with self.lock:`; all item and request
operations hit the database file without the mutual-exclusion lock. -/
theorem store_lock_only_config_ops (op : DbOp) :
    opHoldsLock op
      = (op == DbOp.initDatabase || op == DbOp.getGuildConfig
          || op == DbOp.setGuildConfig) := by
  cases op <;> rfl

/-- C5 counterexample: on the `"Name xN"` syntax the parser lowercases
the whole token before splitting, so `"Iron Ore x50"` maps the key
`"iron ore"`, not the stated item name `"Iron Ore"`. -/
theorem parse_x_syntax_lowercases_name :
    parse_item_input "Iron Ore x50" = [("iron ore", 50)] ∧
    ("Iron Ore", (50 : Int)) ∉ parse_item_input "Iron Ore x50" :=
  ⟨by decide, by decide⟩

/-- C5 (amended): the colon and trailing-word syntaxes keep the stated
item name as the key, while the `"Name xN"` syntax lowercases the whole
token (separator and name alike), so its key is the lowercased name. -/
theorem parse_item_input_three_syntaxes :
    parse_item_input "Iron Ore: 50, Copper Ore: 100"
      = [("Iron Ore", 50), ("Copper Ore", 100)] ∧
    parse_item_input "Iron Ore 50, Copper Ore 100"
      = [("Iron Ore", 50), ("Copper Ore", 100)] ∧
    parse_item_input "Iron Ore x50" = [("iron ore", 50)] :=
  ⟨by decide, by decide, by decide⟩

/-- C6: when the remembered inventory message is gone, the source's
`except discord.NotFound:` arm is a bare `pass` (despite its own comment
"Message was deleted, create a new one"), so the call returns True having
sent nothing, recorded nothing, and kept the stale message id — it does
not fall back to creating a new message. -/
theorem update_inventory_display_swallows_not_found :
    update_inventory_display staleDisplayEnv staleDisplayDb 1
      = (true, staleDisplayDb, [DisplayAction.refreshPending 1]) := by
  rfl

/-- C4: removing `r` units from an item holding `q ≥ 0` leaves exactly
`max 0 (q - r)` units; the stored quantity is never negative. -/
theorem remove_item_quantity_clamps (db : Database) (gid : Nat)
    (name : String) (r : Int) (it : Item)
    (h : get_item db gid name = some it) (hq : 0 ≤ it.quantity) :
    (remove_item_quantity db gid name r).1 = true ∧
    get_item (remove_item_quantity db gid name r).2 gid name
      = some { it with quantity := max 0 (it.quantity - r) } ∧
    ∀ it', get_item (remove_item_quantity db gid name r).2 gid name = some it' →
      0 ≤ it'.quantity := by
  refine ⟨get_item_any h, get_item_remove_self h, ?_⟩
  intro it' h'
  rw [get_item_remove_self h] at h'
  cases h'
  exact le_max_left 0 _

/-- C4 witness: removing 150 from 100 leaves `max 0 (100 - 150) = 0`. -/
theorem remove_item_quantity_clamps_witness :
    (get_item ironDb 1 "Iron Ore"
       = some { id := some 1, guild_id := 1, name := "Iron Ore",
                quantity := 100, description := none } ∧
     (0 : Int) ≤ 100) ∧
    ((remove_item_quantity ironDb 1 "Iron Ore" 150).1 = true ∧
     get_item (remove_item_quantity ironDb 1 "Iron Ore" 150).2 1 "Iron Ore"
       = some { id := some 1, guild_id := 1, name := "Iron Ore",
                quantity := max 0 (100 - 150), description := none } ∧
     ∀ it', get_item (remove_item_quantity ironDb 1 "Iron Ore" 150).2 1
         "Iron Ore" = some it' → 0 ≤ it'.quantity) :=
  ⟨⟨by decide, by decide⟩,
   remove_item_quantity_clamps ironDb 1 "Iron Ore" 150
     { id := some 1, guild_id := 1, name := "Iron Ore", quantity := 100,
       description := none } (by decide) (by decide)⟩

/-- C10: when no row exists for the guild and name, each of the three
quantity mutations returns False and leaves the whole store unchanged. -/
theorem quantity_mutations_missing_item (db : Database) (gid : Nat)
    (name : String) (q : Int)
    (h : ∀ it ∈ db.items, ¬(it.guild_id = gid ∧ it.name = name)) :
    update_item_quantity db gid name q = (false, db) ∧
    add_item_quantity db gid name q = (false, db) ∧
    remove_item_quantity db gid name q = (false, db) := by
  have hfalse : ∀ it ∈ db.items, itemMatches gid name it = false := by
    intro it hit
    rcases Bool.eq_false_or_eq_true (itemMatches gid name it) with ht | hf
    · exact absurd (itemMatches_iff.mp ht) (h it hit)
    · exact hf
  have hany : db.items.any (itemMatches gid name) = false :=
    List.any_eq_false.mpr (fun it hit => by simp [hfalse it hit])
  have hmap : ∀ (f : Item → Item),
      db.items.map (fun it => if itemMatches gid name it then f it else it)
        = db.items := by
    intro f
    have hcongr : db.items.map
        (fun it => if itemMatches gid name it then f it else it)
        = db.items.map (fun it => it) :=
      List.map_congr_left (fun it hit => by rw [hfalse it hit]; simp)
    rw [hcongr, List.map_id']
  refine ⟨?_, ?_, ?_⟩
  · unfold update_item_quantity
    rw [hany, hmap]
  · unfold add_item_quantity
    rw [hany, hmap]
  · unfold remove_item_quantity
    rw [hany, hmap]

/-- C10 witness: the three mutations on an empty items table. -/
theorem quantity_mutations_missing_item_witness :
    (∀ it ∈ (Database.mk [] [] [] 1 1).items,
       ¬(it.guild_id = 1 ∧ it.name = "Iron Ore")) ∧
    (update_item_quantity (Database.mk [] [] [] 1 1) 1 "Iron Ore" 5
       = (false, Database.mk [] [] [] 1 1) ∧
     add_item_quantity (Database.mk [] [] [] 1 1) 1 "Iron Ore" 5
       = (false, Database.mk [] [] [] 1 1) ∧
     remove_item_quantity (Database.mk [] [] [] 1 1) 1 "Iron Ore" 5
       = (false, Database.mk [] [] [] 1 1)) :=
  ⟨by decide,
   quantity_mutations_missing_item (Database.mk [] [] [] 1 1) 1 "Iron Ore" 5
     (by decide)⟩

/-- C9: when no row with the guild and name exists, the first `add_item`
succeeds; repeating it returns False (the UNIQUE violation is caught and
reported as a boolean), changes nothing, and the stored row keeps the
first call's quantity and description. -/
theorem add_item_twice (db : Database) (gid : Nat) (name : String)
    (q : Int) (d : Option String) (q2 : Int) (d2 : Option String)
    (h : ∀ it ∈ db.items, ¬(it.guild_id = gid ∧ it.name = name)) :
    (add_item db gid name q d).1 = true ∧
    (add_item (add_item db gid name q d).2 gid name q2 d2).1 = false ∧
    (add_item (add_item db gid name q d).2 gid name q2 d2).2
      = (add_item db gid name q d).2 ∧
    get_item (add_item (add_item db gid name q d).2 gid name q2 d2).2 gid name
      = some { id := some db.next_item_id, guild_id := gid, name := name,
               quantity := q, description := d } := by
  have hfalse : ∀ it ∈ db.items, itemMatches gid name it = false := by
    intro it hit
    rcases Bool.eq_false_or_eq_true (itemMatches gid name it) with ht | hf
    · exact absurd (itemMatches_iff.mp ht) (h it hit)
    · exact hf
  have hany : db.items.any (itemMatches gid name) = false :=
    List.any_eq_false.mpr (fun it hit => by simp [hfalse it hit])
  have hnew : itemMatches gid name
      { id := some db.next_item_id, guild_id := gid, name := name,
        quantity := q, description := d } = true := by
    simp [itemMatches]
  have h1 : add_item db gid name q d
      = (true, { db with
          items := db.items ++
            [{ id := some db.next_item_id, guild_id := gid, name := name,
               quantity := q, description := d }]
          next_item_id := db.next_item_id + 1 }) := by
    unfold add_item
    rw [hany]
    rfl
  have hany2 : (db.items ++
      [({ id := some db.next_item_id, guild_id := gid, name := name,
          quantity := q, description := d } : Item)]).any
        (itemMatches gid name) = true := by
    rw [List.any_append, hany]
    simp [hnew]
  have h2 : add_item (add_item db gid name q d).2 gid name q2 d2
      = (false, (add_item db gid name q d).2) := by
    rw [h1]
    unfold add_item
    rw [hany2]
    simp
  refine ⟨by rw [h1], by rw [h2], by rw [h2], ?_⟩
  rw [h2, h1]
  show ((db.items ++
      [({ id := some db.next_item_id, guild_id := gid, name := name,
          quantity := q, description := d } : Item)]).filter
      (itemMatches gid name)).head? = _
  rw [List.filter_append, List.filter_eq_nil_iff.mpr
    (fun it hit => by simp [hfalse it hit])]
  simp [hnew]

/-- C9 witness: adding "Iron Ore" twice to an initially empty guild. -/
theorem add_item_twice_witness :
    (∀ it ∈ (Database.mk [] [] [] 1 1).items,
       ¬(it.guild_id = 1 ∧ it.name = "Iron Ore")) ∧
    ((add_item (Database.mk [] [] [] 1 1) 1 "Iron Ore" 100 none).1 = true ∧
     (add_item (add_item (Database.mk [] [] [] 1 1) 1 "Iron Ore" 100 none).2
        1 "Iron Ore" 7 (some "dup")).1 = false ∧
     (add_item (add_item (Database.mk [] [] [] 1 1) 1 "Iron Ore" 100 none).2
        1 "Iron Ore" 7 (some "dup")).2
       = (add_item (Database.mk [] [] [] 1 1) 1 "Iron Ore" 100 none).2 ∧
     get_item (add_item
         (add_item (Database.mk [] [] [] 1 1) 1 "Iron Ore" 100 none).2
         1 "Iron Ore" 7 (some "dup")).2 1 "Iron Ore"
       = some { id := some 1, guild_id := 1, name := "Iron Ore",
                quantity := 100, description := none }) :=
  ⟨by decide,
   add_item_twice (Database.mk [] [] [] 1 1) 1 "Iron Ore" 100 none 7
     (some "dup") (by decide)⟩

/-- C8: updating only `admin_role_ids` of an existing guild config keeps
`inventory_channel_id` and `inventory_message_id` exactly as they were. -/
theorem set_guild_config_partial_update (db : Database) (gid : Nat)
    (cfg : GuildConfig) (roles : String)
    (h : get_guild_config db gid = some cfg) :
    get_guild_config (set_guild_config db gid
        { inventory_channel_id := none, inventory_message_id := none,
          admin_role_ids := some roles }) gid
      = some { cfg with admin_role_ids := roles } ∧
    ∀ cfg', get_guild_config (set_guild_config db gid
        { inventory_channel_id := none, inventory_message_id := none,
          admin_role_ids := some roles }) gid = some cfg' →
      cfg'.inventory_channel_id = cfg.inventory_channel_id ∧
      cfg'.inventory_message_id = cfg.inventory_message_id := by
  rcases get_guild_config_matches h with ⟨hm, hmem⟩
  have hany : db.guild_configs.any (cfgMatches gid) = true :=
    List.any_eq_true.mpr ⟨cfg, hmem, hm⟩
  have heq : set_guild_config db gid
      { inventory_channel_id := none, inventory_message_id := none,
        admin_role_ids := some roles }
    = { db with
        guild_configs :=
          db.guild_configs.map (fun c =>
            if cfgMatches gid c then
              { c with admin_role_ids := roles }
            else c) } := by
    unfold set_guild_config
    rw [if_pos hany]
  have step := get_guild_config_after_map db gid (cfgMatches gid)
    (fun c => { c with admin_role_ids := roles }) (fun _ => rfl)
  have hmain : get_guild_config (set_guild_config db gid
      { inventory_channel_id := none, inventory_message_id := none,
        admin_role_ids := some roles }) gid
    = some { cfg with admin_role_ids := roles } := by
    rw [heq, step, h]
    simp [hm]
  refine ⟨hmain, ?_⟩
  intro cfg' h'
  rw [hmain] at h'
  cases h'
  exact ⟨rfl, rfl⟩

/-- C8 witness: a partial update supplying only admin role ids leaves the
channel and message ids of `setupDb`'s config untouched. -/
theorem set_guild_config_partial_update_witness :
    (get_guild_config setupDb 1
       = some { guild_id := 1, inventory_channel_id := some 5,
                inventory_message_id := some 7, admin_role_ids := "[]" }) ∧
    (get_guild_config (set_guild_config setupDb 1
        { inventory_channel_id := none, inventory_message_id := none,
          admin_role_ids := some "[42]" }) 1
       = some { guild_id := 1, inventory_channel_id := some 5,
                inventory_message_id := some 7, admin_role_ids := "[42]" } ∧
     ∀ cfg', get_guild_config (set_guild_config setupDb 1
        { inventory_channel_id := none, inventory_message_id := none,
          admin_role_ids := some "[42]" }) 1 = some cfg' →
       cfg'.inventory_channel_id = some 5 ∧ cfg'.inventory_message_id = some 7) :=
  ⟨by decide,
   set_guild_config_partial_update setupDb 1
     { guild_id := 1, inventory_channel_id := some 5,
       inventory_message_id := some 7, admin_role_ids := "[]" }
     "[42]" (by decide)⟩

/-- C1: a request already approved or denied rejects any further approve
or deny attempt with a "request already <status>" report; the store —
statuses, ledger quantities, and both timestamp columns — is returned
untouched and no status-write, ledger, or display event happens. -/
theorem terminal_request_transition_fails (env : DisplayEnv) (db : Database)
    (rid : Nat) (now reason : String) (req : ItemRequest)
    (h : get_request db rid = some req)
    (hs : req.status = "approved" ∨ req.status = "denied") :
    approve_button_action env db rid now
      = (ApproveOutcome.alreadyProcessed req.status, db, []) ∧
    deny_modal_submit db rid reason now
      = (DenyOutcome.alreadyProcessed req.status, db, []) := by
  have hne : (req.status != "pending") = true := by
    rcases hs with h' | h' <;> rw [h'] <;> rfl
  constructor
  · unfold approve_button_action
    rw [h]
    simp [hne]
  · unfold deny_modal_submit
    rw [h]
    simp [hne]

/-- C1 witness: re-approving or denying the already-approved request 1
of `approvedReqDb` fails with "already approved" and changes nothing. -/
theorem terminal_request_transition_fails_witness :
    (get_request approvedReqDb 1
       = some { id := some 1, guild_id := 1, user_id := 2, user_name := "u",
                items := [("Iron Ore", 1)], status := "approved",
                created_at := "t0", updated_at := some "t1" } ∧
     ("approved" = "approved" ∨ "approved" = "denied")) ∧
    (approve_button_action trivialEnv approvedReqDb 1 "t2"
       = (ApproveOutcome.alreadyProcessed "approved", approvedReqDb, []) ∧
     deny_modal_submit approvedReqDb 1 "no" "t2"
       = (DenyOutcome.alreadyProcessed "approved", approvedReqDb, [])) :=
  ⟨⟨by decide, Or.inl rfl⟩,
   terminal_request_transition_fails trivialEnv approvedReqDb 1 "t2" "no"
     { id := some 1, guild_id := 1, user_id := 2, user_name := "u",
       items := [("Iron Ore", 1)], status := "approved",
       created_at := "t0", updated_at := some "t1" }
     (by decide) (Or.inl rfl)⟩
